import Mathlib

/-!
Verification development for the RAG chatbot backend (`backend/rag_system.py`).

The Python code is shallowly embedded: float arithmetic is idealised as real
arithmetic, lists model Python lists and numpy arrays row-wise, `Except String`
models raised exceptions, and external collaborators (the embedding model, the
text splitter, the md5 hash, the generative model, the remote Pinecone index)
are parameters of the embedded functions.  `np.argsort` is modelled as a stable
ascending sort of the index list (numpy's introsort is stable on the small
arrays this system handles, and the spec itself speaks of a stable sort);
Python's `a[-k:]` slice is modelled including its `k = 0` quirk, where `a[-0:]`
is the whole list.
-/

/-- Mirrors the `DocumentChunk` dataclass: content, source, chunk id and an
optional metadata mapping (default `None`). -/
structure DocumentChunk where
  content : String
  source : String
  chunk_id : String
  metadata : Option (List (String × String)) := none
  deriving DecidableEq

instance : Inhabited DocumentChunk := ⟨⟨"", "", "", none⟩⟩

/-- Mirrors the `SearchResult` dataclass: a chunk together with its cosine
similarity to the query. -/
structure SearchResult where
  chunk : DocumentChunk
  similarity : ℝ

/-- The slice of the global `config` object that the embedded functions read:
`similarity_threshold`, `max_results` and `data_dir`. -/
structure Config where
  similarity_threshold : ℝ
  max_results : ℕ
  data_dir : String

/-- Mirrors `LocalVectorStore` state: the chunk list, the optional embedding
matrix (`None` before the first add, as in the Python constructor), and the
content of the on-disk pickle snapshot written by `_save_cache` (modelled as
part of the state; `none` means no snapshot has been written yet). -/
structure LocalVectorStore where
  chunks : List DocumentChunk
  embeddings : Option (List (List ℝ))
  cache_file : Option (List DocumentChunk × Option (List (List ℝ)))

/-- Dot product of two vectors, `np.dot` on equal-length float rows. -/
def dot (a b : List ℝ) : ℝ := (List.zipWith (· * ·) a b).sum

/-- Cosine similarity of two vectors as computed by
`sklearn.metrics.pairwise.cosine_similarity`:
`⟨a,b⟩ / (‖a‖‖b‖)`.  Division by a zero norm yields `0` in Lean, matching
sklearn's convention of treating zero-norm rows as similarity `0`. -/
noncomputable def cosineSim (a b : List ℝ) : ℝ :=
  dot a b / (Real.sqrt (dot a a) * Real.sqrt (dot b b))

/-- Entry `i` of the similarity row `similarities[i]` (out-of-range reads give
`0`; the code only indexes in range). -/
def simAt (s : List ℝ) (i : ℕ) : ℝ := s.getD i 0

/-- Insert index `i` into an index list that is already sorted by ascending
similarity, before the first index of similarity `≥` its own.  Together with
`argsortAsc` this models the stable ascending `np.argsort(similarities)`. -/
noncomputable def insertAsc (s : List ℝ) (i : ℕ) : List ℕ → List ℕ
  | [] => [i]
  | j :: js => if simAt s i ≤ simAt s j then i :: j :: js else j :: insertAsc s i js

/-- Stable ascending argsort of the similarity row: the indices
`0, …, len-1` sorted by ascending similarity, ties keeping index order.
Models `np.argsort(similarities)`. -/
noncomputable def argsortAsc (s : List ℝ) : List ℕ :=
  (List.range s.length).foldr (insertAsc s) []

/-- Python's `a[-k:]` slice: the last `k` elements, except that `k = 0`
(`a[-0:] = a[0:]`) yields the whole list. -/
def pySliceLastK (l : List α) (k : ℕ) : List α :=
  if k = 0 then l else l.drop (l.length - k)

/-- The `top_indices` computed by `LocalVectorStore.search`:
`np.argsort(similarities)[-k:][::-1]`. -/
noncomputable def searchIndices (s : List ℝ) (k : ℕ) : List ℕ :=
  (pySliceLastK (argsortAsc s) k).reverse

/-- The similarity row `cosine_similarity([query_embedding], self.embeddings)[0]`:
one cosine similarity per stored embedding row (empty if no matrix yet). -/
noncomputable def querySims (st : LocalVectorStore) (q : List ℝ) : List ℝ :=
  (st.embeddings.getD []).map (fun row => cosineSim q row)

/-- Mirrors `LocalVectorStore.add_documents`: extend the chunk list, `vstack`
the new rows onto the matrix (or install them if the matrix was `None`), and
write the snapshot via `_save_cache` before returning. -/
def LocalVectorStore.add_documents (st : LocalVectorStore)
    (chunks : List DocumentChunk) (embeddings : List (List ℝ)) : LocalVectorStore :=
  let newChunks := st.chunks ++ chunks
  let newEmbeddings : Option (List (List ℝ)) :=
    match st.embeddings with
    | none => some embeddings
    | some m => some (m ++ embeddings)
  { chunks := newChunks, embeddings := newEmbeddings,
    cache_file := some (newChunks, newEmbeddings) }

/-- Mirrors `LocalVectorStore.search`: return `[]` if the matrix is `None` or
no chunks are stored; otherwise compute the similarity row, take
`np.argsort(similarities)[-k:][::-1]`, and keep the indexed results whose
similarity is strictly above `config.similarity_threshold`. -/
noncomputable def LocalVectorStore.search (cfg : Config) (st : LocalVectorStore)
    (query_embedding : List ℝ) (k : ℕ) : List SearchResult :=
  if st.embeddings.isNone = true ∨ st.chunks.length = 0 then []
  else
    (searchIndices (querySims st query_embedding) k).filterMap fun idx =>
      if cfg.similarity_threshold < simAt (querySims st query_embedding) idx then
        some { chunk := st.chunks.getD idx default,
               similarity := simAt (querySims st query_embedding) idx }
      else none

/-- One match of a Pinecone query response: id, score and the metadata fields
the code reads (`text`, `content`, `source`), each possibly absent. -/
structure PineconeMatch where
  id : String
  score : ℝ
  metadataText : Option String
  metadataContent : Option String
  metadataSource : Option String

/-- Mirrors `PineconeVectorStore.search`: issue the remote query (modelled by
the `remote` oracle, which may raise); on any exception return `[]`; otherwise
keep matches scoring strictly above the threshold, reading `text` (falling
back to `content`, then `""`) and `source` (falling back to `"unknown"`) from
the match metadata. -/
noncomputable def PineconeVectorStore.search
    (remote : List ℝ → ℕ → Except String (List PineconeMatch))
    (cfg : Config) (query_embedding : List ℝ) (k : ℕ) : List SearchResult :=
  match remote query_embedding k with
  | .error _ => []
  | .ok ms =>
    ms.filterMap fun m =>
      if cfg.similarity_threshold < m.score then
        some { chunk := { content := m.metadataText.getD (m.metadataContent.getD ""),
                          source := m.metadataSource.getD "unknown",
                          chunk_id := m.id, metadata := none },
               similarity := m.score }
      else none

/-- Python's `str.strip()`: drop leading and trailing whitespace.  (Defined by
structural recursion over the character list so that concrete instances reduce
by `decide`/`rfl`.) -/
def pyStrip (s : String) : String :=
  (((s.data.dropWhile Char.isWhitespace).reverse.dropWhile
      Char.isWhitespace).reverse).asString

/-- Mirrors `DocumentProcessor._chunk_document`: split the content with the
text splitter (external, passed as `split`), drop whitespace-only pieces, and
build for piece `i` a chunk with stripped content and id
`f"{source}_{i}_{md5(chunk_text).hexdigest()[:8]}"` (the md5 hex digest is the
external `md5hex` parameter). -/
def DocumentProcessor.chunk_document (split : String → List String)
    (md5hex : String → String) (content source : String) : List DocumentChunk :=
  (split content).enum.filterMap fun p =>
    if pyStrip p.2 = "" then none
    else some { content := pyStrip p.2, source := source,
                chunk_id := source ++ "_" ++ toString p.1 ++ "_" ++ (md5hex p.2).take 8,
                metadata := none }

/-- The canned response of `RAGSystem._generate_no_context_response`. -/
def no_context_response : String :=
  "I don\x27t have specific information about that topic in my current database.\n\nFor the most accurate and up-to-date information about Texas A&M University courses and programs, I recommend:\n- Checking the official Texas A&M course catalog\n- Contacting the CSCE or ECEN department directly\n- Speaking with an academic advisor\n\nIs there anything else about the available course information I can help you with?"

/-- The canned apology returned when the generator produces empty text. -/
def empty_response_apology : String :=
  "I apologize, but I couldn\x27t generate a response. Please try rephrasing your question."

/-- The user-facing string built at the `except` boundary of `RAGSystem.query`
from the stringified exception. -/
def query_error_response (e : String) : String :=
  "I encountered an error while processing your question: " ++ e

/-- The generator's response object: `response.text`, possibly absent. -/
structure GenResponse where
  text : Option String

/-- The `Source: …\nContent: …` context block assembly of `RAGSystem.query`. -/
def contextOf (results : List SearchResult) : String :=
  String.intercalate "\n\n---\n\n"
    (results.map fun r => "Source: " ++ r.chunk.source ++ "\nContent: " ++ r.chunk.content)

/-- The prompt assembled by `RAGSystem.query` from the system prompt, the
retrieved context and the question. -/
def buildPrompt (systemPrompt context question : String) : String :=
  systemPrompt ++ "\n\nCONTEXT INFORMATION:\n" ++ context ++ "\n\nSTUDENT QUESTION: " ++ question ++ "\n\nPlease provide a comprehensive and helpful response based on the context information above. Include specific details like course numbers, credit hours, prerequisites, and requirements when available."

/-- The `try` block of `RAGSystem.query`, with its effects explicit: `encode`
models `embedding_manager.encode([question])[0]`, `searchFn` the vector
store's `search`, `llm` the `generate_content` call - each may raise, which is
modelled as `Except.error`.  The second component counts how often the
generator was invoked. -/
def RAGSystem.query_body (encode : String → Except String (List ℝ))
    (searchFn : List ℝ → ℕ → Except String (List SearchResult))
    (llm : String → Except String GenResponse)
    (systemPrompt : String) (maxResults : ℕ) (question : String) :
    Except String String × ℕ :=
  match encode question with
  | .error e => (.error e, 0)
  | .ok query_embedding =>
    match searchFn query_embedding maxResults with
    | .error e => (.error e, 0)
    | .ok results =>
      if results.isEmpty then (.ok no_context_response, 0)
      else
        let prompt := buildPrompt systemPrompt (contextOf results) question
        match llm prompt with
        | .error e => (.error e, 1)
        | .ok response =>
          match response.text with
          | some t => (if t = "" then (.ok empty_response_apology, 1) else (.ok (pyStrip t), 1))
          | none => (.ok empty_response_apology, 1)

/-- Mirrors `RAGSystem.query`: run the `try` block and convert any exception
into the user-facing error string.  The second component is the number of
generator invocations. -/
def RAGSystem.query (encode : String → Except String (List ℝ))
    (searchFn : List ℝ → ℕ → Except String (List SearchResult))
    (llm : String → Except String GenResponse)
    (systemPrompt : String) (maxResults : ℕ) (question : String) : String × ℕ :=
  match RAGSystem.query_body encode searchFn llm systemPrompt maxResults question with
  | (.ok s, n) => (s, n)
  | (.error e, n) => (query_error_response e, n)

/-- External collaborators of `RAGSystem.index_documents`: the result of
`document_processor.load_documents(config.data_dir)` (which itself never
raises - per-file failures are logged and skipped) and the embedding of the
chunk texts, which may raise. -/
structure IndexEnv where
  load_documents : List DocumentChunk
  encode : List String → Except String (List (List ℝ))

/-- Mirrors `RAGSystem.index_documents` on a local store: short-circuit when
not forced and chunks are already present; raise `ValueError` when the loader
produced no chunks; otherwise embed the texts and add them to the store.  The
returned store is the (possibly mutated) vector store; on `.error` the store
is unchanged, since the exception is raised before any mutation. -/
def RAGSystem.index_documents (env : IndexEnv) (cfg : Config)
    (st : LocalVectorStore) (force_reindex : Bool) :
    Except String Unit × LocalVectorStore :=
  if force_reindex = false ∧ 0 < st.chunks.length then (.ok (), st)
  else
    let chunks := env.load_documents
    if chunks.isEmpty then (.error ("No documents found in " ++ cfg.data_dir), st)
    else
      match env.encode (chunks.map (·.content)) with
      | .error e => (.error e, st)
      | .ok embeddings => (.ok (), st.add_documents chunks embeddings)

/-! Concrete sample objects used by witnesses and counterexamples. -/

/-- A sample chunk (inserted first in the two-chunk store). -/
def chunkA : DocumentChunk :=
  { content := "alpha", source := "a.txt", chunk_id := "a0", metadata := none }

/-- A sample chunk (inserted second in the two-chunk store). -/
def chunkB : DocumentChunk :=
  { content := "beta", source := "a.txt", chunk_id := "a1", metadata := none }

/-- A sample configuration with similarity threshold `0` and `max_results = 3`. -/
def cfg0 : Config :=
  { similarity_threshold := 0, max_results := 3, data_dir := "Database" }

/-- A store holding one chunk with the one-dimensional embedding `[1]`. -/
def store1 : LocalVectorStore :=
  { chunks := [chunkA], embeddings := some [[1]], cache_file := none }

/-- A store holding two chunks with identical embeddings `[1]`, `[1]`:
both are at cosine similarity `1` to the query `[1]`, a tie. -/
def store2 : LocalVectorStore :=
  { chunks := [chunkA, chunkB], embeddings := some [[1], [1]], cache_file := none }

/-- A freshly constructed, never-indexed store. -/
def emptyStore : LocalVectorStore :=
  { chunks := [], embeddings := none, cache_file := none }

/-- An indexing environment whose loader finds no documents. -/
def env0 : IndexEnv := { load_documents := [], encode := fun _ => .ok [] }

/-- An embedding oracle that returns the empty vector. -/
def encode0 : String → Except String (List ℝ) := fun _ => .ok []

/-- An embedding oracle that raises. -/
def encodeFail : String → Except String (List ℝ) := fun _ => .error "boom"

/-- A search oracle that finds nothing. -/
def sFn0 : List ℝ → ℕ → Except String (List SearchResult) := fun _ _ => .ok []

/-- A generator oracle returning fixed text. -/
def llm0 : String → Except String GenResponse := fun _ => .ok { text := some "ok" }

/-- The search oracle of a system running on the (empty) local store. -/
noncomputable def localSearchFn : List ℝ → ℕ → Except String (List SearchResult) :=
  fun v k => .ok (LocalVectorStore.search cfg0 emptyStore v k)

/-- A remote Pinecone oracle that always raises. -/
def remoteFail : List ℝ → ℕ → Except String (List PineconeMatch) :=
  fun _ _ => .error "connection reset"

/-- C6: with `force=false` on a local store that already holds chunks,
`index_documents` is a no-op: it returns without consulting the loader or the
embedder (the result is the unchanged store for every environment), so a
second `index(force=false)` cannot duplicate chunks. -/
theorem index_documents_noop (env : IndexEnv) (cfg : Config)
    (st : LocalVectorStore) (h : st.chunks ≠ []) :
    RAGSystem.index_documents env cfg st false = (.ok (), st) := by
  unfold RAGSystem.index_documents
  rw [if_pos ⟨rfl, List.length_pos.mpr h⟩]

/-- Witness for C6 at a concrete already-indexed store. -/
theorem index_documents_noop_witness :
    store1.chunks ≠ [] ∧
      RAGSystem.index_documents env0 cfg0 store1 false = (.ok (), store1) :=
  ⟨by simp [store1], index_documents_noop env0 cfg0 store1 (by simp [store1])⟩

/-- C7: if the loader produced zero chunks and the run actually loads (either
`force=true` or the store is still empty), `index_documents` raises the
`ValueError` with the `No documents found` message and the store is returned
unchanged - the exception is raised before any mutation. -/
theorem index_documents_empty_raises (env : IndexEnv) (cfg : Config)
    (st : LocalVectorStore) (force : Bool) (hload : env.load_documents = [])
    (hrun : force = true ∨ st.chunks = []) :
    RAGSystem.index_documents env cfg st force =
      (.error ("No documents found in " ++ cfg.data_dir), st) := by
  unfold RAGSystem.index_documents
  have hcond : ¬(force = false ∧ 0 < st.chunks.length) := by
    rintro ⟨hf, hl⟩
    rcases hrun with h | h
    · rw [h] at hf; cases hf
    · rw [h] at hl; exact absurd hl (by simp)
  rw [if_neg hcond, hload]
  simp

/-- Witness for C7 at a concrete empty loader result and empty store. -/
theorem index_documents_empty_raises_witness :
    env0.load_documents = [] ∧
      RAGSystem.index_documents env0 cfg0 emptyStore false =
        (.error ("No documents found in " ++ cfg0.data_dir), emptyStore) :=
  ⟨rfl, index_documents_empty_raises env0 cfg0 emptyStore false rfl (Or.inr rfl)⟩

/-- C9: `add_documents` with `n` chunks and an `n`-row matrix appends: the
chunk count stays equal to the row count, the prior chunks and rows are an
unchanged prefix of the new state, and the snapshot written by `_save_cache`
holds exactly the new state when the call returns. -/
theorem add_documents_alignment (st : LocalVectorStore) (cs : List DocumentChunk)
    (es : List (List ℝ)) (halign : (st.embeddings.getD []).length = st.chunks.length)
    (hn : es.length = cs.length) :
    ((st.add_documents cs es).embeddings.getD []).length =
        (st.add_documents cs es).chunks.length ∧
      (st.add_documents cs es).chunks.take st.chunks.length = st.chunks ∧
      ((st.add_documents cs es).embeddings.getD []).take
          (st.embeddings.getD []).length = st.embeddings.getD [] ∧
      (st.add_documents cs es).cache_file =
        some ((st.add_documents cs es).chunks, (st.add_documents cs es).embeddings) := by
  unfold LocalVectorStore.add_documents
  cases h : st.embeddings with
  | none =>
    rw [h] at halign
    simp only [Option.getD_none, List.length_nil] at halign
    have hnil : st.chunks = [] := (List.length_eq_zero).mp halign.symm
    simp [hnil, hn]
  | some m =>
    rw [h] at halign
    simp only [Option.getD_some] at halign
    simp [List.length_append, halign, hn, List.take_left']

/-- Witness for C9 at a concrete aligned store and one-chunk batch. -/
theorem add_documents_alignment_witness :
    (store1.embeddings.getD []).length = store1.chunks.length ∧
      ((store1.add_documents [chunkB] [[1]]).embeddings.getD []).length =
        (store1.add_documents [chunkB] [[1]]).chunks.length :=
  ⟨by simp [store1],
    (add_documents_alignment store1 [chunkB] [[1]] (by simp [store1]) (by simp)).1⟩

/-- C5: `RAGSystem.query` never lets an exception escape: whenever its `try`
block (`query_body`, covering embedding, search and generation) raises `e`,
the caller receives the ordinary string
`"I encountered an error while processing your question: " ++ e`. -/
theorem query_catches_errors (encode : String → Except String (List ℝ))
    (searchFn : List ℝ → ℕ → Except String (List SearchResult))
    (llm : String → Except String GenResponse) (sp : String) (maxR : ℕ)
    (q e : String)
    (h : (RAGSystem.query_body encode searchFn llm sp maxR q).1 = .error e) :
    (RAGSystem.query encode searchFn llm sp maxR q).1 = query_error_response e := by
  unfold RAGSystem.query
  rcases hq : RAGSystem.query_body encode searchFn llm sp maxR q with ⟨r, n⟩
  rw [hq] at h
  cases r with
  | ok s => exact absurd h (by simp)
  | error e2 =>
    simp only at h
    cases h
    rfl

/-- Witness for C5: a failing embedding call is converted to the error string. -/
theorem query_catches_errors_witness :
    (RAGSystem.query_body encodeFail sFn0 llm0 "sys" 3 "q").1 = .error "boom" ∧
      (RAGSystem.query encodeFail sFn0 llm0 "sys" 3 "q").1 =
        query_error_response "boom" :=
  ⟨rfl, query_catches_errors encodeFail sFn0 llm0 "sys" 3 "q" "boom" rfl⟩

/-- C4: when the search step returns zero results, `query` returns the canned
no-information response and the generator is never invoked (the invocation
count is `0`, for every generator oracle). -/
theorem query_no_context_skips_llm (encode : String → Except String (List ℝ))
    (searchFn : List ℝ → ℕ → Except String (List SearchResult))
    (llm : String → Except String GenResponse) (sp : String) (maxR : ℕ)
    (q : String) (v : List ℝ) (henc : encode q = .ok v)
    (hsearch : searchFn v maxR = .ok []) :
    RAGSystem.query encode searchFn llm sp maxR q = (no_context_response, 0) := by
  unfold RAGSystem.query RAGSystem.query_body
  simp [henc, hsearch]

/-- Witness for C4: querying the empty local store returns the canned
response with zero generator calls. -/
theorem query_no_context_skips_llm_witness :
    encode0 "hi" = .ok [] ∧ localSearchFn [] cfg0.max_results = .ok [] ∧
      RAGSystem.query encode0 localSearchFn llm0 "sys" cfg0.max_results "hi" =
        (no_context_response, 0) :=
  ⟨rfl, rfl,
    query_no_context_skips_llm encode0 localSearchFn llm0 "sys" cfg0.max_results
      "hi" [] rfl rfl⟩

/-- C10: if the remote query call raises, `PineconeVectorStore.search` returns
`[]` instead of propagating, and the surrounding `RAGSystem.query` therefore
answers with the canned no-information response (and never calls the
generator) - indistinguishable from a genuine zero-result search. -/
theorem pinecone_failure_no_context
    (remote : List ℝ → ℕ → Except String (List PineconeMatch)) (cfg : Config)
    (encode : String → Except String (List ℝ))
    (llm : String → Except String GenResponse) (sp : String) (q : String)
    (v : List ℝ) (e : String) (henc : encode q = .ok v)
    (hremote : remote v cfg.max_results = .error e) :
    PineconeVectorStore.search remote cfg v cfg.max_results = [] ∧
      RAGSystem.query encode
          (fun w k => .ok (PineconeVectorStore.search remote cfg w k)) llm sp
          cfg.max_results q = (no_context_response, 0) := by
  have hps : PineconeVectorStore.search remote cfg v cfg.max_results = [] := by
    unfold PineconeVectorStore.search
    rw [hremote]
  refine ⟨hps, ?_⟩
  unfold RAGSystem.query RAGSystem.query_body
  simp [henc, hps]

/-- Witness for C10 at a concrete always-failing remote oracle. -/
theorem pinecone_failure_no_context_witness :
    encode0 "q" = .ok [] ∧ remoteFail [] cfg0.max_results = .error "connection reset" ∧
      RAGSystem.query encode0
          (fun w k => .ok (PineconeVectorStore.search remoteFail cfg0 w k)) llm0
          "sys" cfg0.max_results "q" = (no_context_response, 0) :=
  ⟨rfl, rfl,
    (pinecone_failure_no_context remoteFail cfg0 encode0 llm0 "sys" "q" [] 
      "connection reset" rfl rfl).2⟩

/-- C8: a chunk is produced by `_chunk_document` exactly when it arises from a
position `i` of the splitter output whose text is not whitespace-only, with
stripped content and the deterministic id
`source ++ "_" ++ i ++ "_" ++ (md5 hex digest).take 8`; whitespace-only pieces
are dropped silently.  Determinism across reruns is definitional in this pure
embedding: the output depends only on the splitter, the hash, the content and
the source name. -/
theorem chunk_document_spec (split : String → List String)
    (md5hex : String → String) (content source : String) (c : DocumentChunk) :
    c ∈ DocumentProcessor.chunk_document split md5hex content source ↔
      ∃ i t, (split content).get? i = some t ∧ pyStrip t ≠ "" ∧
        c = { content := pyStrip t, source := source,
              chunk_id := source ++ "_" ++ toString i ++ "_" ++ (md5hex t).take 8,
              metadata := none } := by
  unfold DocumentProcessor.chunk_document
  rw [List.mem_filterMap]
  constructor
  · rintro ⟨⟨i, t⟩, hmem, hf⟩
    rw [List.mem_enum_iff_get?] at hmem
    by_cases ht : pyStrip t = ""
    · rw [if_pos ht] at hf
      cases hf
    · rw [if_neg ht] at hf
      exact ⟨i, t, hmem, ht, (Option.some.injEq _ _).mp hf |>.symm⟩
  · rintro ⟨i, t, hget, ht, hc⟩
    refine ⟨(i, t), List.mem_enum_iff_get?.mpr hget, ?_⟩
    rw [if_neg ht, hc]

/-- Witness for C8: a concrete splitter output yields the predicted chunk. -/
theorem chunk_document_spec_witness :
    ({ content := "a", source := "s", chunk_id := "s_0_deadbeef",
       metadata := none } : DocumentChunk) ∈
      DocumentProcessor.chunk_document (fun s => [s])
        (fun _ => "deadbeef00") "a" "s" :=
  (chunk_document_spec (fun s => [s]) (fun _ => "deadbeef00") "a" "s" _).mpr
    ⟨0, "a", rfl, by decide, by decide⟩

/-! Ordering machinery for the argsort model. -/

/-- The total preorder by which the stable ascending argsort orders indices:
by similarity, ties by index (earlier index first). -/
def simLe (s : List ℝ) (i j : ℕ) : Prop :=
  simAt s i < simAt s j ∨ (simAt s i = simAt s j ∧ i ≤ j)

theorem simLe_trans {s : List ℝ} {i j k : ℕ} (h1 : simLe s i j) (h2 : simLe s j k) :
    simLe s i k := by
  rcases h1 with h1 | ⟨h1, h1i⟩ <;> rcases h2 with h2 | ⟨h2, h2i⟩
  · exact Or.inl (h1.trans h2)
  · exact Or.inl (h2 ▸ h1)
  · exact Or.inl (h1 ▸ h2)
  · exact Or.inr ⟨h1.trans h2, h1i.trans h2i⟩

theorem mem_insertAsc {s : List ℝ} {i a : ℕ} :
    ∀ {l : List ℕ}, a ∈ insertAsc s i l ↔ a = i ∨ a ∈ l
  | [] => by simp [insertAsc]
  | j :: js => by
    unfold insertAsc
    by_cases h : simAt s i ≤ simAt s j
    · rw [if_pos h]
      simp
    · rw [if_neg h]
      simp only [List.mem_cons, mem_insertAsc (l := js)]
      tauto

theorem insertAsc_perm (s : List ℝ) (i : ℕ) :
    ∀ (l : List ℕ), List.Perm (insertAsc s i l) (i :: l)
  | [] => by simp [insertAsc]
  | j :: js => by
    unfold insertAsc
    by_cases h : simAt s i ≤ simAt s j
    · rw [if_pos h]
    · rw [if_neg h]
      exact ((insertAsc_perm s i js).cons j).trans (List.Perm.swap i j js)

theorem sorted_insertAsc {s : List ℝ} {i : ℕ} :
    ∀ {l : List ℕ}, List.Sorted (simLe s) l → (∀ j ∈ l, i < j) →
      List.Sorted (simLe s) (insertAsc s i l)
  | [], _, _ => List.sorted_singleton i
  | j :: js, hsort, hgt => by
    unfold insertAsc
    rw [List.sorted_cons] at hsort
    by_cases h : simAt s i ≤ simAt s j
    · rw [if_pos h]
      have hij : simLe s i j := by
        rcases lt_or_eq_of_le h with h' | h'
        · exact Or.inl h'
        · exact Or.inr ⟨h', le_of_lt (hgt j (List.mem_cons_self j js))⟩
      rw [List.sorted_cons]
      refine ⟨?_, List.sorted_cons.mpr hsort⟩
      intro b hb
      rcases List.mem_cons.mp hb with rfl | hb
      · exact hij
      · exact simLe_trans hij (hsort.1 b hb)
    · rw [if_neg h]
      rw [List.sorted_cons]
      constructor
      · intro b hb
        rcases mem_insertAsc.mp hb with rfl | hb
        · exact Or.inl (lt_of_not_le h)
        · exact hsort.1 b hb
      · exact sorted_insertAsc hsort.2 fun b hb => hgt b (List.mem_cons_of_mem j hb)

theorem foldr_insertAsc_perm (s : List ℝ) :
    ∀ (l : List ℕ), List.Perm (l.foldr (insertAsc s) []) l
  | [] => List.Perm.refl []
  | x :: xs => by
    simpa using (insertAsc_perm s x (xs.foldr (insertAsc s) [])).trans
      ((foldr_insertAsc_perm s xs).cons x)

theorem foldr_insertAsc_sorted (s : List ℝ) :
    ∀ {l : List ℕ}, l.Pairwise (· < ·) → List.Sorted (simLe s) (l.foldr (insertAsc s) [])
  | [], _ => List.sorted_nil
  | x :: xs, hp => by
    refine sorted_insertAsc (foldr_insertAsc_sorted s hp.of_cons) ?_
    intro j hj
    exact List.rel_of_pairwise_cons hp ((foldr_insertAsc_perm s xs).mem_iff.mp hj)

theorem argsortAsc_perm (s : List ℝ) : List.Perm (argsortAsc s) (List.range s.length) :=
  foldr_insertAsc_perm s (List.range s.length)

theorem argsortAsc_sorted (s : List ℝ) : List.Sorted (simLe s) (argsortAsc s) :=
  foldr_insertAsc_sorted s (List.pairwise_lt_range s.length)

theorem argsortAsc_length (s : List ℝ) : (argsortAsc s).length = s.length := by
  rw [(argsortAsc_perm s).length_eq, List.length_range]

theorem pySliceLastK_sublist (l : List α) (k : ℕ) : List.Sublist (pySliceLastK l k) l := by
  unfold pySliceLastK
  by_cases h : k = 0
  · rw [if_pos h]
  · rw [if_neg h]
    exact List.drop_sublist _ l

theorem searchIndices_sublist_argsort (s : List ℝ) (k : ℕ) :
    ∀ i ∈ searchIndices s k, i ∈ argsortAsc s := by
  intro i hi
  unfold searchIndices at hi
  exact (pySliceLastK_sublist (argsortAsc s) k).mem (List.mem_reverse.mp hi)

theorem mem_searchIndices_lt (s : List ℝ) (k : ℕ) :
    ∀ i ∈ searchIndices s k, i < s.length := by
  intro i hi
  have := (argsortAsc_perm s).mem_iff.mp (searchIndices_sublist_argsort s k i hi)
  exact List.mem_range.mp this

theorem searchIndices_length_le (s : List ℝ) {k : ℕ} (hk : 1 ≤ k) :
    (searchIndices s k).length ≤ k := by
  unfold searchIndices pySliceLastK
  rw [if_neg (by omega : ¬k = 0)]
  rw [List.length_reverse, List.length_drop]
  omega

theorem searchIndices_sorted (s : List ℝ) (k : ℕ) :
    List.Sorted (fun i j => simLe s j i) (searchIndices s k) := by
  unfold searchIndices
  rw [List.Sorted, List.pairwise_reverse]
  exact List.Pairwise.sublist (pySliceLastK_sublist (argsortAsc s) k) (argsortAsc_sorted s)

theorem searchIndices_nodup (s : List ℝ) (k : ℕ) : (searchIndices s k).Nodup := by
  unfold searchIndices
  rw [List.nodup_reverse]
  exact ((pySliceLastK_sublist (argsortAsc s) k).nodup
    ((argsortAsc_perm s).nodup_iff.mpr (List.nodup_range s.length)))

/-! Dot product and cosine similarity facts. -/

theorem dot_nil_left (b : List ℝ) : dot [] b = 0 := rfl

theorem dot_nil_right (a : List ℝ) : dot a [] = 0 := by
  cases a <;> rfl

theorem dot_cons_cons (x y : ℝ) (a b : List ℝ) :
    dot (x :: a) (y :: b) = x * y + dot a b := by
  simp [dot]

theorem dot_self_nonneg (a : List ℝ) : 0 ≤ dot a a := by
  induction a with
  | nil => exact le_refl 0
  | cons x t ih =>
    rw [dot_cons_cons]
    nlinarith [mul_self_nonneg x]

/-- Cauchy-Schwarz for the list dot product. -/
theorem dot_sq_le_dot_mul_dot (a : List ℝ) : ∀ b, (dot a b) ^ 2 ≤ dot a a * dot b b := by
  induction a with
  | nil =>
    intro b
    simp [dot_nil_left]
  | cons x t ih =>
    intro b
    cases b with
    | nil =>
      simp [dot_nil_right]
    | cons y u =>
      rw [dot_cons_cons, dot_cons_cons, dot_cons_cons]
      have h1 := ih u
      have h2 := dot_self_nonneg t
      have h3 := dot_self_nonneg u
      by_cases hab : dot t t + dot u u = 0
      · have hA : dot t t = 0 := by nlinarith
        have hB : dot u u = 0 := by nlinarith
        have hD2 : (dot t u) ^ 2 ≤ 0 := by nlinarith
        have hD : dot t u = 0 :=
          (pow_eq_zero_iff two_ne_zero).mp (le_antisymm hD2 (sq_nonneg _))
        rw [hA, hB, hD]
        exact le_of_eq (by ring)
      · have hpos : 0 < dot t t + dot u u := lt_of_le_of_ne (by nlinarith) (Ne.symm hab)
        have hcs : (0:ℝ) ≤ dot t t * dot u u - (dot t u) ^ 2 := by nlinarith
        have hsum : (0:ℝ) ≤ x * x + y * y + dot t t + dot u u := by
          nlinarith [mul_self_nonneg x, mul_self_nonneg y]
        have key : (dot t t + dot u u) *
              ((x * x + dot t t) * (y * y + dot u u) - (x * y + dot t u) ^ 2) =
            (x * dot u u - y * dot t u) ^ 2 + (y * dot t t - x * dot t u) ^ 2 +
              (x * x + y * y + dot t t + dot u u) *
                (dot t t * dot u u - (dot t u) ^ 2) := by
          ring
        nlinarith [key, sq_nonneg (x * dot u u - y * dot t u),
          sq_nonneg (y * dot t t - x * dot t u), mul_nonneg hsum hcs]

theorem cosineSim_le_one (a b : List ℝ) : cosineSim a b ≤ 1 := by
  unfold cosineSim
  have hd0 : 0 ≤ Real.sqrt (dot a a) * Real.sqrt (dot b b) :=
    mul_nonneg (Real.sqrt_nonneg _) (Real.sqrt_nonneg _)
  rcases eq_or_lt_of_le hd0 with h | h
  · rw [← h, div_zero]
    norm_num
  · rw [div_le_one h]
    calc dot a b ≤ |dot a b| := le_abs_self _
      _ = Real.sqrt ((dot a b) ^ 2) := (Real.sqrt_sq_eq_abs _).symm
      _ ≤ Real.sqrt (dot a a * dot b b) := Real.sqrt_le_sqrt (dot_sq_le_dot_mul_dot a b)
      _ = Real.sqrt (dot a a) * Real.sqrt (dot b b) := Real.sqrt_mul (dot_self_nonneg a) _

theorem cosineSim_self (a : List ℝ) (h : 0 < dot a a) : cosineSim a a = 1 := by
  unfold cosineSim
  rw [Real.mul_self_sqrt (le_of_lt h), div_self (ne_of_gt h)]

/-- C2: every result returned by a search - local or hosted variant - has
similarity strictly greater than the configured threshold. -/
theorem search_results_above_threshold (cfg : Config) (st : LocalVectorStore)
    (remote : List ℝ → ℕ → Except String (List PineconeMatch)) (q : List ℝ)
    (k : ℕ) (r1 r2 : SearchResult) :
    (r1 ∈ LocalVectorStore.search cfg st q k →
      cfg.similarity_threshold < r1.similarity) ∧
    (r2 ∈ PineconeVectorStore.search remote cfg q k →
      cfg.similarity_threshold < r2.similarity) := by
  constructor
  · intro hr
    unfold LocalVectorStore.search at hr
    by_cases hg : st.embeddings.isNone = true ∨ st.chunks.length = 0
    · rw [if_pos hg] at hr
      cases hr
    · rw [if_neg hg] at hr
      obtain ⟨idx, _, hf⟩ := List.mem_filterMap.mp hr
      by_cases hc : cfg.similarity_threshold < simAt (querySims st q) idx
      · rw [if_pos hc] at hf
        cases hf
        exact hc
      · rw [if_neg hc] at hf
        cases hf
  · intro hr
    unfold PineconeVectorStore.search at hr
    rcases hrem : remote q k with e | ms
    · rw [hrem] at hr
      cases hr
    · rw [hrem] at hr
      obtain ⟨m, _, hf⟩ := List.mem_filterMap.mp hr
      by_cases hc : cfg.similarity_threshold < m.score
      · rw [if_pos hc] at hf
        cases hf
        exact hc
      · rw [if_neg hc] at hf
        cases hf

/-! Concrete evaluations of the search pipeline, used by witnesses and the
counterexample. -/

theorem insertAsc_nil (s : List ℝ) (i : ℕ) : insertAsc s i [] = [i] := rfl

theorem insertAsc_cons (s : List ℝ) (i j : ℕ) (js : List ℕ) :
    insertAsc s i (j :: js) =
      if simAt s i ≤ simAt s j then i :: j :: js else j :: insertAsc s i js := rfl

theorem dot_one_one : dot [(1:ℝ)] [1] = 1 := by
  rw [dot_cons_cons, dot_nil_left]
  ring

theorem cosineSim_one_one : cosineSim [(1:ℝ)] [1] = 1 := by
  unfold cosineSim
  rw [dot_one_one, Real.sqrt_one]
  norm_num

theorem querySims_store1 : querySims store1 [1] = [1] := by
  unfold querySims store1
  simp [cosineSim_one_one]

theorem querySims_store2 : querySims store2 [1] = [1, 1] := by
  unfold querySims store2
  simp [cosineSim_one_one]

theorem argsortAsc_single : argsortAsc [(1:ℝ)] = [0] := by
  unfold argsortAsc
  rw [show ([(1:ℝ)]).length = 1 from rfl]
  rw [show List.range 1 = [0] by decide]
  rw [List.foldr_cons, List.foldr_nil, insertAsc_nil]

theorem argsortAsc_pair : argsortAsc [(1:ℝ), 1] = [0, 1] := by
  unfold argsortAsc
  rw [show ([(1:ℝ), 1]).length = 2 from rfl]
  rw [show List.range 2 = [0, 1] by decide]
  rw [List.foldr_cons, List.foldr_cons, List.foldr_nil, insertAsc_nil, insertAsc_cons]
  rw [if_pos (le_of_eq (show simAt [(1:ℝ), 1] 0 = simAt [(1:ℝ), 1] 1 from rfl))]

theorem searchIndices_pair_zero : searchIndices [(1:ℝ), 1] 0 = [1, 0] := by
  unfold searchIndices pySliceLastK
  rw [argsortAsc_pair, if_pos rfl]
  rfl

theorem searchIndices_single_three : searchIndices [(1:ℝ)] 3 = [0] := by
  unfold searchIndices pySliceLastK
  rw [argsortAsc_single, if_neg (by omega : ¬(3:ℕ) = 0)]
  rfl

theorem search_store1_eval :
    LocalVectorStore.search cfg0 store1 [1] 3 =
      [{ chunk := chunkA, similarity := 1 }] := by
  unfold LocalVectorStore.search
  rw [if_neg (by simp [store1])]
  rw [querySims_store1, searchIndices_single_three]
  norm_num [List.filterMap_cons, simAt, store1, cfg0]

/-- Counterexample to C1 as stated: on the two-chunk store whose vectors both
have similarity `1` to the query (a tie), a search with `k = 0` returns BOTH
results (not at most `k`), and the later-inserted `chunkB` precedes the
earlier-inserted `chunkA`: reversing the ascending argsort puts ties in
reverse insertion order. -/
theorem search_tie_counterexample :
    LocalVectorStore.search cfg0 store2 [1] 0 =
      [{ chunk := chunkB, similarity := 1 }, { chunk := chunkA, similarity := 1 }] := by
  unfold LocalVectorStore.search
  rw [if_neg (by simp [store2])]
  rw [querySims_store2, searchIndices_pair_zero]
  norm_num [List.filterMap_cons, simAt, store2, cfg0]

/-- C1 (amended): for `k ≥ 1` the local search returns at most `k` results,
ordered by non-increasing similarity; the selected index list is ordered by
descending similarity with ties broken by REVERSE insertion order (the
later-inserted index first, because `[::-1]` reverses the stable ascending
argsort), and contains no duplicates.  (For `k = 0` the Python slice quirk
`[-0:]` returns all above-threshold results instead, see the
counterexample.) -/
theorem search_order_amended (cfg : Config) (st : LocalVectorStore) (q : List ℝ)
    (k : ℕ) (hk : 1 ≤ k) :
    (LocalVectorStore.search cfg st q k).length ≤ k ∧
    List.Sorted (fun a b : SearchResult => b.similarity ≤ a.similarity)
      (LocalVectorStore.search cfg st q k) ∧
    List.Sorted (fun i j : ℕ => simLe (querySims st q) j i)
      (searchIndices (querySims st q) k) ∧
    (searchIndices (querySims st q) k).Nodup := by
  refine ⟨?_, ?_, searchIndices_sorted _ k, searchIndices_nodup _ k⟩
  · unfold LocalVectorStore.search
    by_cases hg : st.embeddings.isNone = true ∨ st.chunks.length = 0
    · rw [if_pos hg]
      simp
    · rw [if_neg hg]
      exact le_trans (List.length_filterMap_le _ _)
        (searchIndices_length_le (querySims st q) hk)
  · unfold LocalVectorStore.search
    by_cases hg : st.embeddings.isNone = true ∨ st.chunks.length = 0
    · rw [if_pos hg]
      exact List.sorted_nil
    · rw [if_neg hg]
      rw [List.Sorted, List.pairwise_filterMap]
      refine List.Pairwise.imp ?_ (searchIndices_sorted (querySims st q) k)
      intro i j hij
      intro r hr r' hr'
      rw [Option.mem_def] at hr hr'
      by_cases hci : cfg.similarity_threshold < simAt (querySims st q) i
      · rw [if_pos hci] at hr
        by_cases hcj : cfg.similarity_threshold < simAt (querySims st q) j
        · rw [if_pos hcj] at hr'
          cases hr
          cases hr'
          rcases hij with h | ⟨h, _⟩
          · exact le_of_lt h
          · exact le_of_eq h
        · rw [if_neg hcj] at hr'
          cases hr'
      · rw [if_neg hci] at hr
        cases hr

/-- Witness for the amended C1, applied at the concrete tied store with
`k = 1`. -/
theorem search_order_amended_witness :
    1 ≤ 1 ∧
    ((LocalVectorStore.search cfg0 store2 [1] 1).length ≤ 1 ∧
      List.Sorted (fun a b : SearchResult => b.similarity ≤ a.similarity)
        (LocalVectorStore.search cfg0 store2 [1] 1) ∧
      List.Sorted (fun i j : ℕ => simLe (querySims store2 [1]) j i)
        (searchIndices (querySims store2 [1]) 1) ∧
      (searchIndices (querySims store2 [1]) 1).Nodup) :=
  ⟨le_refl 1, search_order_amended cfg0 store2 [1] 1 (le_refl 1)⟩

/-- A remote oracle returning a single high-scoring match. -/
def remoteOk : List ℝ → ℕ → Except String (List PineconeMatch) :=
  fun _ _ => .ok [{ id := "p0", score := 1, metadataText := some "text",
                    metadataContent := none, metadataSource := some "s" }]

/-- The local search result used in the C2 witness. -/
def resA : SearchResult := { chunk := chunkA, similarity := 1 }

/-- The hosted search result used in the C2 witness. -/
def resP : SearchResult :=
  { chunk := { content := "text", source := "s", chunk_id := "p0",
               metadata := none },
    similarity := 1 }

theorem pinecone_search_eval :
    PineconeVectorStore.search remoteOk cfg0 [1] 3 = [resP] := by
  unfold PineconeVectorStore.search remoteOk resP
  norm_num [List.filterMap_cons, cfg0]

/-- Witness for C2: concrete members of both a local and a hosted search
result, shown to clear the threshold by the theorem. -/
theorem search_results_above_threshold_witness :
    resA ∈ LocalVectorStore.search cfg0 store1 [1] 3 ∧
      cfg0.similarity_threshold < resA.similarity ∧
      resP ∈ PineconeVectorStore.search remoteOk cfg0 [1] 3 ∧
      cfg0.similarity_threshold < resP.similarity := by
  have hmem1 : resA ∈ LocalVectorStore.search cfg0 store1 [1] 3 := by
    rw [search_store1_eval]
    exact List.mem_singleton.mpr rfl
  have hmem2 : resP ∈ PineconeVectorStore.search remoteOk cfg0 [1] 3 := by
    rw [pinecone_search_eval]
    exact List.mem_singleton.mpr rfl
  exact ⟨hmem1,
    (search_results_above_threshold cfg0 store1 remoteOk [1] 3 resA resP).1 hmem1,
    hmem2,
    (search_results_above_threshold cfg0 store1 remoteOk [1] 3 resA resP).2 hmem2⟩

/-! Facts needed for the store round-trip claim. -/

theorem getLast?_drop_of_lt (l : List α) (n : ℕ) (h : n < l.length) :
    (l.drop n).getLast? = l.getLast? := by
  rw [List.getLast?_eq_getElem?, List.getLast?_eq_getElem?, List.getElem?_drop,
    List.length_drop]
  congr 1
  omega

theorem getLast?_pySliceLastK (l : List α) {k : ℕ} (hk : 1 ≤ k) (hl : l ≠ []) :
    (pySliceLastK l k).getLast? = l.getLast? := by
  unfold pySliceLastK
  rw [if_neg (by omega : ¬k = 0)]
  apply getLast?_drop_of_lt
  have : 0 < l.length := List.length_pos.mpr hl
  omega

theorem mem_pairwise_getLast {r : ℕ → ℕ → Prop} :
    ∀ (l : List ℕ) (hne : l ≠ []), List.Pairwise r l →
      ∀ x ∈ l, x = l.getLast hne ∨ r x (l.getLast hne)
  | [], hne, _, _, _ => absurd rfl hne
  | [a], _, _, x, hx => by
    rw [List.mem_singleton] at hx
    exact Or.inl (by rw [hx]; rfl)
  | a :: b :: t, _, hp, x, hx => by
    rw [List.getLast_cons (by simp : b :: t ≠ [])]
    rcases List.mem_cons.mp hx with rfl | hx
    · exact Or.inr (List.rel_of_pairwise_cons hp (List.getLast_mem (by simp)))
    · exact mem_pairwise_getLast (b :: t) (by simp) hp.of_cons x hx

/-- If the final entry of the similarity row is a maximum, the stable argsort
puts its index (the largest index among maxima) last. -/
theorem argsortAsc_getLast?_max (s : List ℝ) (hs : s ≠ [])
    (hmax : ∀ i, i < s.length → simAt s i ≤ simAt s (s.length - 1)) :
    (argsortAsc s).getLast? = some (s.length - 1) := by
  have hlen : (argsortAsc s).length = s.length := argsortAsc_length s
  have hpos : 0 < s.length := List.length_pos.mpr hs
  have hne : argsortAsc s ≠ [] := by
    intro h
    rw [h] at hlen
    simp at hlen
    omega
  rw [List.getLast?_eq_getLast _ hne]
  congr 1
  have hxmem : (argsortAsc s).getLast hne ∈ argsortAsc s := List.getLast_mem hne
  have hxlt : (argsortAsc s).getLast hne < s.length :=
    List.mem_range.mp ((argsortAsc_perm s).mem_iff.mp hxmem)
  have hMmem : s.length - 1 ∈ argsortAsc s :=
    (argsortAsc_perm s).mem_iff.mpr (List.mem_range.mpr (by omega))
  rcases mem_pairwise_getLast (argsortAsc s) hne (argsortAsc_sorted s)
      (s.length - 1) hMmem with h | h
  · exact h.symm
  · rcases h with h | ⟨_, hle⟩
    · exact absurd h (not_lt.mpr (hmax _ hxlt))
    · omega

theorem add_documents_embeddings (st : LocalVectorStore) (cs : List DocumentChunk)
    (es : List (List ℝ)) :
    (st.add_documents cs es).embeddings = some (st.embeddings.getD [] ++ es) := by
  unfold LocalVectorStore.add_documents
  cases st.embeddings <;> simp

theorem add_documents_chunks (st : LocalVectorStore) (cs : List DocumentChunk)
    (es : List (List ℝ)) : (st.add_documents cs es).chunks = st.chunks ++ cs := rfl

theorem querySims_add (st : LocalVectorStore) (cs : List DocumentChunk)
    (es : List (List ℝ)) (q : List ℝ) :
    querySims (st.add_documents cs es) q =
      querySims st q ++ es.map (fun row => cosineSim q row) := by
  unfold querySims
  rw [add_documents_embeddings]
  simp

theorem querySims_le_one (st : LocalVectorStore) (q : List ℝ) (i : ℕ) :
    simAt (querySims st q) i ≤ 1 := by
  unfold simAt
  rw [List.getD_eq_getElem?_getD]
  rcases hx : (querySims st q)[i]? with _ | x
  · norm_num
  · rw [Option.getD_some]
    have hmem : x ∈ querySims st q := List.getElem?_mem hx
    unfold querySims at hmem
    obtain ⟨row, _, hrow⟩ := List.mem_map.mp hmem
    rw [← hrow]
    exact cosineSim_le_one q row

/-- C3: adding a chunk with nonzero embedding `v` to an aligned local store
and searching with the same vector `v` (with `k ≥ 1` and the threshold below
`1`) returns that chunk as the top result with similarity exactly `1` in the
real-arithmetic model (the float implementation realises this up to rounding,
which is the spec's "approximately 1.0").  The added chunk wins even against
earlier chunks that also have similarity `1`, because ties are resolved in
favour of the largest index. -/
theorem search_roundtrip_top (cfg : Config) (st : LocalVectorStore)
    (c : DocumentChunk) (v : List ℝ) (k : ℕ)
    (hthr : cfg.similarity_threshold < 1) (hk : 1 ≤ k) (hv : 0 < dot v v)
    (halign : (st.embeddings.getD []).length = st.chunks.length) :
    (LocalVectorStore.search cfg (st.add_documents [c] [v]) v k).head? =
      some { chunk := c, similarity := 1 } := by
  set st' := st.add_documents [c] [v] with hst
  have hrows : st'.embeddings = some (st.embeddings.getD [] ++ [v]) :=
    add_documents_embeddings st [c] [v]
  have hchunks : st'.chunks = st.chunks ++ [c] := add_documents_chunks st [c] [v]
  have hqlen : (querySims st v).length = st.chunks.length := by
    unfold querySims
    simp [halign]
  have hslen : (querySims st' v).length = st.chunks.length + 1 := by
    rw [querySims_add, List.length_append, hqlen]
    simp
  have hsne : querySims st' v ≠ [] := by
    intro h
    rw [h] at hslen
    simp at hslen
  have hn : (querySims st' v).length - 1 = st.chunks.length := by omega
  have hlast : simAt (querySims st' v) st.chunks.length = 1 := by
    rw [querySims_add]
    unfold simAt
    rw [List.getD_append_right _ _ _ _ (le_of_eq hqlen), hqlen, Nat.sub_self]
    simp [cosineSim_self v hv]
  have hbound : ∀ i, i < (querySims st' v).length →
      simAt (querySims st' v) i ≤ simAt (querySims st' v) ((querySims st' v).length - 1) := by
    intro i _
    rw [hn, hlast]
    exact querySims_le_one st' v i
  have harglne : argsortAsc (querySims st' v) ≠ [] := by
    intro h
    have := argsortAsc_length (querySims st' v)
    rw [h] at this
    simp at this
    omega
  have hargl : (argsortAsc (querySims st' v)).getLast? =
      some ((querySims st' v).length - 1) :=
    argsortAsc_getLast?_max _ hsne hbound
  have hhead : (searchIndices (querySims st' v) k).head? = some st.chunks.length := by
    unfold searchIndices
    rw [List.head?_reverse, getLast?_pySliceLastK _ hk harglne, hargl, hn]
  obtain ⟨t, hT⟩ : ∃ t, searchIndices (querySims st' v) k = st.chunks.length :: t := by
    rcases hE : searchIndices (querySims st' v) k with _ | ⟨a, t⟩
    · rw [hE] at hhead
      cases hhead
    · rw [hE] at hhead
      simp only [List.head?_cons, Option.some.injEq] at hhead
      exact ⟨t, by rw [hhead]⟩
  have hguard : ¬(st'.embeddings.isNone = true ∨ st'.chunks.length = 0) := by
    rw [hrows, hchunks]
    simp
  unfold LocalVectorStore.search
  rw [if_neg hguard, hT, List.filterMap_cons]
  rw [hlast, if_pos hthr, hchunks,
    List.getD_append_right _ _ _ _ (le_refl _), Nat.sub_self]
  rfl

/-- Witness for C3: the end-to-end sample of the spec, added to the empty
store and retrieved with its own vector. -/
theorem search_roundtrip_top_witness :
    cfg0.similarity_threshold < 1 ∧ 1 ≤ 1 ∧ 0 < dot [(1:ℝ)] [1] ∧
      (emptyStore.embeddings.getD []).length = emptyStore.chunks.length ∧
      (LocalVectorStore.search cfg0 (emptyStore.add_documents [chunkA] [[1]])
          [1] 1).head? = some { chunk := chunkA, similarity := 1 } := by
  have h1 : cfg0.similarity_threshold < 1 := by norm_num [cfg0]
  have h3 : 0 < dot [(1:ℝ)] [1] := by
    rw [dot_one_one]
    norm_num
  have h4 : (emptyStore.embeddings.getD []).length = emptyStore.chunks.length := rfl
  exact ⟨h1, le_refl 1, h3, h4,
    search_roundtrip_top cfg0 emptyStore chunkA [1] 1 h1 (le_refl 1) h3 h4⟩
